import Mathlib

/-!
Verification development for the vocabulary-resolution core of the
OMOP_Alchemy repository: the `VocabLookup` class of
`omop_alchemy/conventions/vocab_lookups.py` and the concept enumerations
of `omop_alchemy/conventions/concept_enumerators.py`.

Modelling conventions:
* Python strings are lists of Unicode code points (`PyStr`); `str.lower()`
  is modelled on the ASCII range, which covers every concept name and
  term handled by the repository.
* The backing `defaultdict` is an association list with unique keys;
  its `__getitem__` is modelled faithfully, including the insertion of
  the default value on a missing key.
* The `unknown` sentinel is an `enum.Enum` member (a name/value pair),
  as in every lookup the repository configures; `return_unknown`
  dereferences `.value` on it exactly as the source does.
* Reference-data queries (concept table, concept-relationship table)
  are modelled as materialized lists of rows.
-/

namespace OmopAlchemy

/-- Python strings as lists of Unicode code points. -/
abbrev PyStr := List Nat

/-- Code points of a Lean string literal, used to write concrete Python strings. -/
def pystr (s : String) : PyStr := s.data.map Char.toNat

/-- One code point under Python `str.lower()` (ASCII range). -/
def lowerChar (c : Nat) : Nat := if 65 ≤ c ∧ c ≤ 90 then c + 32 else c

/-- Python `str.lower()`. -/
def pyLower (s : PyStr) : PyStr := s.map lowerChar

/-- Python `str.strip()` whitespace test (ASCII whitespace code points). -/
def isSpaceChar (c : Nat) : Bool :=
  c == 32 || c == 9 || c == 10 || c == 13 || c == 11 || c == 12

/-- Python `str.strip()`: remove leading and trailing whitespace. -/
def pyStrip (s : PyStr) : PyStr :=
  ((s.dropWhile isSpaceChar).reverse.dropWhile isSpaceChar).reverse

/-- The key normalization `term.lower().strip()` used throughout
`vocab_lookups.py` (line 93, line 98, line 103, line 54). -/
def pyNormalize (s : PyStr) : PyStr := pyStrip (pyLower s)

/-- Python dict read: value of the first matching key.
`dictSet` keeps keys unique, so the first match is the only match. -/
def dictGet (m : List (PyStr × Nat)) (k : PyStr) : Option Nat :=
  match m with
  | [] => none
  | p :: rest => if p.1 == k then some p.2 else dictGet rest k

/-- Python dict assignment `m[k] = v`: overwrite the existing entry or
append a new one. -/
def dictSet (m : List (PyStr × Nat)) (k : PyStr) (v : Nat) : List (PyStr × Nat) :=
  match m with
  | [] => [(k, v)]
  | p :: rest => if p.1 == k then (k, v) :: rest else p :: dictSet rest k v

/-- A member of a Python `enum.Enum` class: a declared name and its value. -/
structure EnumMember where
  name : String
  value : Nat
deriving DecidableEq

/-- Python `==` between a plain `int` and a plain `enum.Enum` member is
always `False`: `enum.Enum` does not override `__eq__`, so members compare
by identity and never equal their underlying integer value.  Consequently
`!=` between them is always `True`.  This models the comparison
`value != self._unknown` on line 101 of `vocab_lookups.py`, where `value`
is an `int` drawn from the mapping and `self._unknown` is an enum member. -/
def pyIntNeEnumMember (_value : Nat) (_m : EnumMember) : Bool := true

/-- The state of a `VocabLookup` instance (`vocab_lookups.py` lines 21-32):
the configured unknown sentinel, the backing `defaultdict` contents, and
the optional ordered correction chain. -/
structure VocabLookup where
  _unknown : EnumMember
  _lookup : List (PyStr × Nat)
  _correction : Option (List (PyStr → PyStr))

/-- `VocabLookup.return_unknown` (line 87-88): the default factory of the
backing `defaultdict`; returns `self._unknown.value`. -/
def VocabLookup.return_unknown (v : VocabLookup) : Nat := v._unknown.value

/-- `self._lookup[k]` on the backing `defaultdict`: on a hit, return the
stored value and leave the dict unchanged; on a miss, call the default
factory `return_unknown`, insert the result under `k`, and return it. -/
def VocabLookup.dd_getitem (v : VocabLookup) (k : PyStr) : Nat × VocabLookup :=
  match dictGet v._lookup k with
  | some val => (val, v)
  | none => (v.return_unknown,
             { v with _lookup := v._lookup ++ [(k, v.return_unknown)] })

/-- `VocabLookup.lookup_exact` (lines 90-93): a `None` term becomes the
empty string, then the normalized term is read from the backing
`defaultdict`.  Returns the value together with the post-call state. -/
def VocabLookup.lookup_exact (v : VocabLookup) (term : Option PyStr) : Nat × VocabLookup :=
  let t := term.getD []
  v.dd_getitem (pyNormalize t)

/-- The `for c in self._correction` loop of `VocabLookup.lookup`
(lines 100-103): before applying each correction the loop breaks when
`value != self._unknown`; on the non-break branch it re-reads the
defaultdict at the corrected, normalized term. -/
def correction_loop (t : PyStr) :
    List (PyStr → PyStr) → VocabLookup → Nat → Nat × VocabLookup
  | [], v, value => (value, v)
  | c :: rest, v, value =>
    if pyIntNeEnumMember value v._unknown then (value, v)
    else
      let r := v.dd_getitem (pyNormalize (c t))
      correction_loop t rest r.2 r.1

/-- `VocabLookup.lookup` (lines 95-104). -/
def VocabLookup.lookup (v : VocabLookup) (term : Option PyStr) : Nat × VocabLookup :=
  let t := term.getD []
  let r := v.dd_getitem (pyNormalize t)
  match r.2._correction with
  | none => r
  | some cs => correction_loop t cs r.2 r.1

/-- Instrumentation of the `lookup` loop: how many correction functions
are actually applied to the term during the call. -/
def correction_loop_count (t : PyStr) :
    List (PyStr → PyStr) → VocabLookup → Nat → Nat
  | [], _, _ => 0
  | c :: rest, v, value =>
    if pyIntNeEnumMember value v._unknown then 0
    else
      let r := v.dd_getitem (pyNormalize (c t))
      1 + correction_loop_count t rest r.2 r.1

/-- How many correction functions a call `v.lookup term` evaluates. -/
def lookup_corrections (v : VocabLookup) (term : Option PyStr) : Nat :=
  let t := term.getD []
  let r := v.dd_getitem (pyNormalize t)
  match r.2._correction with
  | none => 0
  | some cs => correction_loop_count t cs r.2 r.1

/-! ### Concept enumerations (`concept_enumerators.py`)

A Python `enum.Enum` class is modelled by its list of declarations in
source order, each a name/value pair.  When a later declaration repeats
an earlier value, Python makes it an alias of the earlier member:
iteration over the class skips aliases, and constructing the enum from a
value yields the first-declared member. -/

/-- The canonical (non-alias) members of an enum class, in declaration
order: a declaration is kept only when its value has not occurred before. -/
def canonical_members (decls : List (String × Nat)) : List (String × Nat) :=
  decls.foldl (fun acc d => if acc.any (fun p => p.2 == d.2) then acc else acc ++ [d]) []

/-- `ConceptEnum.member_values` (lines 5-7): the values of the members
produced by iterating the class (aliases skipped). -/
def member_values (decls : List (String × Nat)) : List Nat :=
  (canonical_members decls).map Prod.snd

/-- A Python value passed to `is_member` or `is_unknown`: `None`, an
`int`, or a `str`. -/
inductive PyVal where
  | none : PyVal
  | int : Nat → PyVal
  | str : PyStr → PyVal
deriving DecidableEq

/-- Python truthiness for the values above: `None`, `0` and the empty
string are falsy, everything else is truthy. -/
def pyTruthy : PyVal → Bool
  | PyVal.none => false
  | PyVal.int n => n != 0
  | PyVal.str s => s != []

/-- Python `==` between one of these values and an `int` from an enum
value list: only an `int` can equal an `int`. -/
def pyEqInt : PyVal → Nat → Bool
  | PyVal.int m, n => m == n
  | PyVal.none, _ => false
  | PyVal.str _, _ => false

/-- `ConceptEnum.is_member` (lines 9-11): `not val or val in [s.value for s in cls]`. -/
def is_member (decls : List (String × Nat)) (val : PyVal) : Bool :=
  !pyTruthy val || (member_values decls).any (fun n => pyEqInt val n)

/-- `ConceptEnum.labels` (lines 13-15): `[s.name for s in cls]`
(iteration skips aliases). -/
def labels (decls : List (String × Nat)) : List String :=
  (canonical_members decls).map Prod.fst

/-- `ConceptEnum.get_name` (lines 17-22): `cls(val).name`, which resolves
a value to its first-declared (canonical) member name, or the empty
string when the value belongs to no member. -/
def get_name (decls : List (String × Nat)) (val : Nat) : String :=
  match decls.find? (fun p => p.2 == val) with
  | some p => p.1
  | Option.none => ""

/-- The `Unknown` enum (lines 24-39). -/
def Unknown : List (String × Nat) :=
  [("generic", 4129922), ("gender", 4214687), ("condition", 44790729),
   ("cancer", 36402660), ("grade", 4264626), ("stage", 36768646),
   ("stage_edition", 1634449), ("drug_trial", 4090378),
   ("therapeutic_regimen", 4207655)]

/-- `Unknown.is_unknown` (lines 37-39): same body as `ConceptEnum.is_member`,
over the `Unknown` values. -/
def is_unknown (val : PyVal) : Bool := is_member Unknown val

/-- The `Unknown.generic` member, used to configure lookup instances. -/
def Unknown.generic : EnumMember := ⟨"generic", 4129922⟩

/-- `DiseaseEpisodeConcepts` (lines 63-73); note `partial_response` and
`complete_response` both declare the value 32947. -/
def DiseaseEpisodeConcepts : List (String × Nat) :=
  [("episode_of_care", 32533), ("confined", 32528), ("invasive", 32677),
   ("metastatic", 32944), ("stable_disease", 32948),
   ("disease_progression", 32949), ("partial_response", 32947),
   ("complete_response", 32947)]

/-- `TStageConcepts` (lines 93-103); note `ta`, `tx` and `tis` all
declare the value 1635682. -/
def TStageConcepts : List (String × Nat) :=
  [("t0", 1634213), ("t1", 1635564), ("t2", 1635562), ("t3", 1634376),
   ("t4", 1634654), ("ta", 1635682), ("tx", 1635682), ("tis", 1635682)]

/-- `GroupStageConcepts` (lines 120-126); note `stageIII` and `stageIV`
both declare the value 1633650. -/
def GroupStageConcepts : List (String × Nat) :=
  [("stage0", 1633754), ("stageI", 1633306), ("stageII", 1634209),
   ("stageIII", 1633650), ("stageIV", 1633650)]

/-! ### Reference data and lookup construction (`vocab_lookups.py`) -/

/-- A row of the concept table, as read by `get_domain_lookup`. -/
structure Concept where
  concept_id : Nat
  concept_name : PyStr
  domain_id : String
deriving DecidableEq

/-- A row of the concept-relationship table. -/
structure ConceptRelationship where
  concept_id_1 : Nat
  concept_id_2 : Nat
  relationship_id : String
deriving DecidableEq

/-- The row set of `VocabLookup.get_children` (lines 56-64): the distinct
`(concept_id_1, concept_id_2)` pairs of Subsumes rows whose source
concept lies in the queried id set.  This is a charitable reading in two
ways, used only to reason about the traversal the code intends: the
source returns the lazy SQLAlchemy `Query` object itself, not its rows
(see `Query` and `get_children_query` below for the faithful value), and
both source call sites (lines 73 and 81) pass a bare scalar where
`.in_(concept_id_tuple)` expects a sequence, which the embedding reads
as the singleton id set. -/
def get_children (rels : List ConceptRelationship) (ids : List Nat) : List (Nat × Nat) :=
  ((rels.filter (fun e => ids.contains e.concept_id_1 && e.relationship_id == "Subsumes")).map
    (fun e => (e.concept_id_1, e.concept_id_2))).dedup

/-- `VocabLookup.get_all_concepts_in_hierarchy` (lines 66-75), on
materialized row lists.  This is the charitable reading of the
traversal: in the program, `children` is the lazy `Query` object and the
stop check `len(children) == 0` (line 70) applies `len()` to it, which
raises TypeError on every call because `Query` defines no `__len__` —
see `get_all_concepts_in_hierarchy_run` below for that faithful
execution.  In this materialized model: the accumulator `concepts` is
the mutable Python list; the source's only statement that would add to
it (`concepts.append(...)`, line 74) is commented out, so the loop body
merely recurses.  The `for child in children` loop is a left fold: each
child of the frontier is expanded by recursing on `get_children` of its
target concept (read as the singleton frontier `{child.concept_id_2}`).
The `fuel` argument bounds the recursion depth for the embedding;
`Option.none` means the bound was hit before every branch of the
traversal reached an empty frontier. -/
def get_all_concepts_in_hierarchy (rels : List ConceptRelationship) :
    Nat → List (Nat × Nat) → List Concept → Option (List Concept)
  | 0, _, _ => Option.none
  | fuel + 1, children, concepts =>
    if children.length = 0 then some concepts
    else
      children.foldl
        (fun acc child =>
          match acc with
          | Option.none => Option.none
          | some cs =>
            get_all_concepts_in_hierarchy rels fuel (get_children rels [child.2]) cs)
        (some concepts)

/-- `VocabLookup.get_lookup` (lines 77-85): query the first level of
children under the parent, collect the hierarchy into the local list
`concepts`, then insert each collected concept into the mapping under
its lower-cased (not stripped) name. -/
def get_lookup (rels : List ConceptRelationship) (parent : Nat) (fuel : Nat)
    (m : List (PyStr × Nat)) : Option (List (PyStr × Nat)) :=
  let first_level := get_children rels [parent]
  match get_all_concepts_in_hierarchy rels fuel first_level [] with
  | Option.none => Option.none
  | some concepts =>
    some (concepts.foldl (fun acc c => dictSet acc (pyLower c.concept_name) c.concept_id) m)

/-- `VocabLookup.get_domain_lookup` (lines 46-54): insert every concept
of the configured domain under its lower-cased, stripped name. -/
def get_domain_lookup (concepts : List Concept) (domain : String)
    (m : List (PyStr × Nat)) : List (PyStr × Nat) :=
  (concepts.filter (fun c => c.domain_id == domain)).foldl
    (fun acc c => dictSet acc (pyNormalize c.concept_name) c.concept_id) m

/-- A lazy SQLAlchemy `Query` object as returned by `get_children`
(lines 61-64): iterating it yields the rows below, but the object itself
is not a list. -/
structure Query where
  rows : List (Nat × Nat)
deriving DecidableEq

/-- Python `len()` applied to a SQLAlchemy `Query` object: `Query`
defines no `__len__`, so the call raises `TypeError` regardless of how
many rows the query would yield. -/
def pyLenQuery (_q : Query) : Except String Nat :=
  Except.error "TypeError: object of type Query has no len()"

/-- `VocabLookup.get_children` as the source has it (lines 56-64): the
lazy `Query` object itself, carrying the rows it would yield. -/
def get_children_query (rels : List ConceptRelationship) (ids : List Nat) : Query :=
  ⟨get_children rels ids⟩

/-- `VocabLookup.get_all_concepts_in_hierarchy` as the program actually
executes it (lines 66-75): the `children` argument is the lazy `Query`
object that `get_children` returns, and the stop check on line 70
computes `len(children)`.  `pyLenQuery` raises, and the exception
propagates out of the call; were `len()` to succeed, the traversal would
stop on zero and otherwise continue as in the materialized model
`get_all_concepts_in_hierarchy`. -/
def get_all_concepts_in_hierarchy_run (rels : List ConceptRelationship) (fuel : Nat)
    (children : Query) (concepts : List Concept) : Except String (List Concept) :=
  match pyLenQuery children with
  | Except.error e => Except.error e
  | Except.ok n =>
    if n = 0 then Except.ok concepts
    else
      match get_all_concepts_in_hierarchy rels fuel children.rows concepts with
      | some cs => Except.ok cs
      | Option.none => Except.error "RecursionError: maximum recursion depth exceeded"

/-! ### Concrete instances used to exercise the definitions -/

/-- The key-normalization invariant of the backing mapping: every key is
lower-cased and stripped of leading and trailing whitespace. -/
def NormalizedKeys (m : List (PyStr × Nat)) : Prop :=
  ∀ p ∈ m, pyNormalize p.1 = p.1

/-- A lookup instance with one mapped term and a two-step correction
chain: the first correction rewrites any term to the mapped term
`"fixed"`, the second to an unmapped term. -/
def c1ex : VocabLookup :=
  ⟨Unknown.generic, [(pystr "fixed", 7)],
   some [fun _ => pystr "fixed", fun _ => pystr "other"]⟩

/-- A Subsumes graph with parent 1, child 2 and grandchild 3
(`P to A`, `A to B`, no edge out of `B`). -/
def c3_rels : List ConceptRelationship :=
  [⟨1, 2, "Subsumes"⟩, ⟨2, 3, "Subsumes"⟩]

/-- A lookup instance with a single mapped term and no correction chain. -/
def c4ex : VocabLookup := ⟨Unknown.generic, [(pystr "male", 1)], Option.none⟩

/-- A lookup instance whose mapping holds one entry, used to observe the
defaultdict insertion on a missed term. -/
def c6ex : VocabLookup := ⟨Unknown.generic, [(pystr "a", 1)], Option.none⟩

/-- A Subsumes chain `1 to 2 to 3`, acyclic, used to exercise the
hierarchy traversal. -/
def c7_rels : List ConceptRelationship :=
  [⟨1, 2, "Subsumes"⟩, ⟨2, 3, "Subsumes"⟩]

/-- A lookup instance with a mapped term and an identity correction
chain, used to exercise the exact-hit path of `lookup`. -/
def c8ex : VocabLookup := ⟨Unknown.generic, [(pystr "male", 1)], some [fun t => t]⟩

/-- A lookup instance populated by a domain scan over one concept named
`"Breast"`. -/
def breastEx : VocabLookup :=
  ⟨Unknown.generic,
   get_domain_lookup [⟨5, pystr "Breast", "Condition"⟩] "Condition" [],
   Option.none⟩

/-! ### Normalization lemmas -/

theorem lowerChar_idem (c : Nat) : lowerChar (lowerChar c) = lowerChar c := by
  simp only [lowerChar]
  split
  · rw [if_neg (by omega)]
  · rfl

theorem isSpaceChar_lowerChar (c : Nat) : isSpaceChar (lowerChar c) = isSpaceChar c := by
  simp only [lowerChar]
  split
  · rename_i h
    have h1 : isSpaceChar (c + 32) = false := by
      simp only [isSpaceChar, Bool.or_eq_false_iff, beq_eq_false_iff_ne, ne_eq]
      omega
    have h2 : isSpaceChar c = false := by
      simp only [isSpaceChar, Bool.or_eq_false_iff, beq_eq_false_iff_ne, ne_eq]
      omega
    rw [h1, h2]
  · rfl

theorem pyLower_idem (s : PyStr) : pyLower (pyLower s) = pyLower s := by
  simp only [pyLower, List.map_map]
  exact List.map_congr_left fun c _ => lowerChar_idem c

theorem pyLower_reverse (s : PyStr) : pyLower s.reverse = (pyLower s).reverse :=
  List.map_reverse lowerChar s

theorem pyLower_dropWhile (s : PyStr) :
    pyLower (s.dropWhile isSpaceChar) = (pyLower s).dropWhile isSpaceChar := by
  induction s with
  | nil => rfl
  | cons c cs ih =>
    cases hc : isSpaceChar c with
    | true =>
      simp only [pyLower, List.map_cons, List.dropWhile_cons, isSpaceChar_lowerChar, hc,
        if_true]
      simpa [pyLower] using ih
    | false =>
      simp [pyLower, List.dropWhile_cons, isSpaceChar_lowerChar, hc]

theorem pyLower_pyStrip (s : PyStr) : pyLower (pyStrip s) = pyStrip (pyLower s) := by
  simp only [pyStrip, pyLower_reverse, pyLower_dropWhile]

theorem dw_head_false (p : Nat → Bool) :
    ∀ (l : List Nat) (a : Nat) (u : List Nat), l.dropWhile p = a :: u → p a = false := by
  intro l
  induction l with
  | nil => intro a u h; cases h
  | cons c cs ih =>
    intro a u h
    cases hc : p c with
    | true =>
      rw [List.dropWhile_cons, if_pos hc] at h
      exact ih a u h
    | false =>
      rw [List.dropWhile_cons, if_neg (by simp [hc])] at h
      cases h
      exact hc

theorem dw_suffix (p : Nat → Bool) :
    ∀ l : List Nat, ∃ t, l = t ++ l.dropWhile p := by
  intro l
  induction l with
  | nil => exact ⟨[], rfl⟩
  | cons c cs ih =>
    cases hc : p c with
    | true =>
      obtain ⟨t, ht⟩ := ih
      refine ⟨c :: t, ?_⟩
      rw [List.dropWhile_cons, if_pos hc, List.cons_append, ← ht]
    | false =>
      refine ⟨[], ?_⟩
      rw [List.dropWhile_cons, if_neg (by simp [hc]), List.nil_append]

theorem dw_cons_of_false (p : Nat → Bool) (a : Nat) (u : List Nat) (h : p a = false) :
    (a :: u).dropWhile p = a :: u := by
  rw [List.dropWhile_cons, if_neg (by simp [h])]

theorem dw_dw (p : Nat → Bool) (l : List Nat) :
    (l.dropWhile p).dropWhile p = l.dropWhile p := by
  cases h : l.dropWhile p with
  | nil => rfl
  | cons a u => exact dw_cons_of_false p a u (dw_head_false p l a u h)

theorem pyStrip_idem (s : PyStr) : pyStrip (pyStrip s) = pyStrip s := by
  cases hB : (s.dropWhile isSpaceChar).reverse.dropWhile isSpaceChar with
  | nil =>
    have hs : pyStrip s = [] := by
      simp only [pyStrip, hB, List.reverse_nil]
    rw [hs]
    rfl
  | cons b u =>
    have hs : pyStrip s = (b :: u).reverse := by
      simp only [pyStrip, hB]
    have hA : s.dropWhile isSpaceChar ≠ [] := by
      intro hnil
      rw [hnil] at hB
      cases hB
    obtain ⟨a, A1, hAc⟩ : ∃ a A1, s.dropWhile isSpaceChar = a :: A1 := by
      cases hA2 : s.dropWhile isSpaceChar with
      | nil => exact absurd hA2 hA
      | cons x y => exact ⟨x, y, rfl⟩
    have hpa : isSpaceChar a = false := dw_head_false isSpaceChar s a A1 hAc
    obtain ⟨t, ht⟩ := dw_suffix isSpaceChar (s.dropWhile isSpaceChar).reverse
    rw [hB] at ht
    have hApre : s.dropWhile isSpaceChar = (b :: u).reverse ++ t.reverse := by
      have := congrArg List.reverse ht
      rwa [List.reverse_reverse, List.reverse_append] at this
    obtain ⟨w, hw⟩ : ∃ w, (b :: u).reverse = a :: w := by
      cases hr : (b :: u).reverse with
      | nil =>
        have hlen := congrArg List.length hr
        simp at hlen
      | cons x y =>
        rw [hAc, hr] at hApre
        rw [List.cons_append] at hApre
        cases hApre
        exact ⟨y, rfl⟩
    have step1 : ((b :: u).reverse).dropWhile isSpaceChar = (b :: u).reverse := by
      rw [hw]
      exact dw_cons_of_false isSpaceChar a w hpa
    rw [hs]
    simp only [pyStrip, step1, List.reverse_reverse]
    have step2 : (b :: u).dropWhile isSpaceChar = b :: u := by
      have := dw_dw isSpaceChar (s.dropWhile isSpaceChar).reverse
      rwa [hB] at this
    rw [step2]

theorem pyNormalize_idem (s : PyStr) : pyNormalize (pyNormalize s) = pyNormalize s := by
  unfold pyNormalize
  rw [pyLower_pyStrip, pyLower_idem, pyStrip_idem]

/-! ### Dictionary and lookup lemmas -/

theorem dictGet_mem_values (m : List (PyStr × Nat)) (k : PyStr) (v : Nat) :
    dictGet m k = some v → v ∈ m.map Prod.snd := by
  induction m with
  | nil => intro h; cases h
  | cons p rest ih =>
    intro h
    simp only [dictGet] at h
    simp only [List.map_cons]
    split at h
    · simp only [Option.some.injEq] at h
      subst h
      exact List.mem_cons_self _ _
    · exact List.mem_cons_of_mem _ (ih h)

theorem dd_getitem_state (v : VocabLookup) (k : PyStr) :
    (v.dd_getitem k).2._lookup = v._lookup ∨
    (v.dd_getitem k).2._lookup = v._lookup ++ [(k, v._unknown.value)] := by
  unfold VocabLookup.dd_getitem
  cases h : dictGet v._lookup k with
  | none =>
    right
    simp [h, VocabLookup.return_unknown]
  | some val =>
    left
    simp [h]

theorem correction_loop_eq (t : PyStr) (cs : List (PyStr → PyStr)) (v : VocabLookup)
    (value : Nat) : correction_loop t cs v value = (value, v) := by
  cases cs with
  | nil => rfl
  | cons c rest => simp [correction_loop, pyIntNeEnumMember]

theorem lookup_eq_lookup_exact (v : VocabLookup) (term : Option PyStr) :
    v.lookup term = v.lookup_exact term := by
  unfold VocabLookup.lookup VocabLookup.lookup_exact
  cases hc : (v.dd_getitem (pyNormalize (term.getD []))).2._correction with
  | none => simp [hc]
  | some cs => simp [hc, correction_loop_eq]

theorem lookup_corrections_zero (v : VocabLookup) (term : Option PyStr) :
    lookup_corrections v term = 0 := by
  unfold lookup_corrections
  cases hc : (v.dd_getitem (pyNormalize (term.getD []))).2._correction with
  | none => simp [hc]
  | some cs =>
    cases cs with
    | nil => simp [hc, correction_loop_count]
    | cons c rest => simp [hc, correction_loop_count, pyIntNeEnumMember]

theorem normalizedKeys_dictSet (m : List (PyStr × Nat)) (k : PyStr) (v : Nat)
    (hk : pyNormalize k = k) :
    NormalizedKeys m → NormalizedKeys (dictSet m k v) := by
  induction m with
  | nil =>
    intro _ p hp
    rw [show dictSet [] k v = [(k, v)] from rfl, List.mem_singleton] at hp
    subst hp
    exact hk
  | cons q rest ih =>
    intro hm p hp
    simp only [dictSet] at hp
    split at hp
    · rcases List.mem_cons.mp hp with h1 | h2
      · subst h1; exact hk
      · exact hm p (List.mem_cons_of_mem _ h2)
    · rcases List.mem_cons.mp hp with h1 | h2
      · subst h1; exact hm p (List.mem_cons_self _ _)
      · exact ih (fun q2 hq2 => hm q2 (List.mem_cons_of_mem _ hq2)) p h2

theorem normalizedKeys_domain_foldl (l : List Concept) :
    ∀ m, NormalizedKeys m →
      NormalizedKeys
        (l.foldl (fun acc c => dictSet acc (pyNormalize c.concept_name) c.concept_id) m) := by
  induction l with
  | nil => intro m hm; exact hm
  | cons c rest ih =>
    intro m hm
    exact ih _ (normalizedKeys_dictSet _ _ _ (pyNormalize_idem _) hm)

theorem normalizedKeys_dd_getitem (v : VocabLookup) (k : PyStr)
    (hk : pyNormalize k = k) (hm : NormalizedKeys v._lookup) :
    NormalizedKeys (v.dd_getitem k).2._lookup := by
  unfold VocabLookup.dd_getitem
  cases h : dictGet v._lookup k with
  | some val => simpa [h] using hm
  | none =>
    simp only [h]
    intro p hp
    rcases List.mem_append.mp hp with h1 | h2
    · exact hm p h1
    · rw [List.mem_singleton] at h2
      subst h2
      exact hk

/-! ### Hierarchy traversal lemmas -/

theorem gaich_foldl_none (rels : List ConceptRelationship) (fuel : Nat)
    (children : List (Nat × Nat)) :
    children.foldl
      (fun acc child =>
        match acc with
        | Option.none => Option.none
        | some cs =>
          get_all_concepts_in_hierarchy rels fuel (get_children rels [child.2]) cs)
      Option.none = Option.none := by
  induction children with
  | nil => rfl
  | cons child rest ih => exact ih

theorem gaich_acc (rels : List ConceptRelationship) :
    ∀ (fuel : Nat) (children : List (Nat × Nat)) (concepts res : List Concept),
      get_all_concepts_in_hierarchy rels fuel children concepts = some res →
      res = concepts := by
  intro fuel
  induction fuel with
  | zero => intro children concepts res h; cases h
  | succ fuel ih =>
    intro children concepts res h
    rw [get_all_concepts_in_hierarchy] at h
    split at h
    · exact (Option.some.inj h).symm
    · clear * - h ih
      induction children generalizing concepts with
      | nil => exact (Option.some.inj h).symm
      | cons child rest ihl =>
        simp only [List.foldl_cons] at h
        cases hg : get_all_concepts_in_hierarchy rels fuel (get_children rels [child.2])
            concepts with
        | none =>
          rw [hg, gaich_foldl_none] at h
          cases h
        | some cs =>
          rw [hg] at h
          have hcs : cs = concepts := ih _ _ _ hg
          subst hcs
          exact ihl _ h

theorem mem_get_children (rels : List ConceptRelationship) (n : Nat) (c : Nat × Nat)
    (h : c ∈ get_children rels [n]) :
    c.1 = n ∧ ∃ e, e ∈ rels ∧ e.relationship_id = "Subsumes" ∧
      e.concept_id_1 = c.1 ∧ e.concept_id_2 = c.2 := by
  unfold get_children at h
  rw [List.mem_dedup] at h
  obtain ⟨e, he, hec⟩ := List.mem_map.mp h
  rw [List.mem_filter] at he
  obtain ⟨hmem, hpred⟩ := he
  rw [Bool.and_eq_true] at hpred
  obtain ⟨hin, hrel⟩ := hpred
  subst hec
  have h1 : e.concept_id_1 = n := by simpa using hin
  have h2 : e.relationship_id = "Subsumes" := by simpa using hrel
  exact ⟨h1, e, hmem, h2, rfl, rfl⟩

/-! ### Claim theorems -/

/-- C1: the claim states that with a correction chain `[c1, c2]`, a term
whose exact lookup is unknown but whose first correction hits must
resolve through `c1`.  The code violates this: on the instance `c1ex`
the term `"miss"` misses (`lookup_exact` returns the unknown value
4129922), the first correction maps it to `"fixed"` whose exact lookup
is 7, yet `lookup "miss"` still returns 4129922 and evaluates zero
correction functions, because the loop guard `value != self._unknown`
compares an `int` with an `enum.Enum` member and is therefore always
true, breaking out of the chain before any correction is applied. -/
theorem C1_correction_chain_never_applied :
    (c1ex.lookup_exact (some (pystr "miss"))).1 = c1ex._unknown.value ∧
    (c1ex.lookup_exact (some ((fun _ => pystr "fixed") (pystr "miss")))).1 = 7 ∧
    7 ≠ c1ex._unknown.value ∧
    (c1ex.lookup (some (pystr "miss"))).1 = c1ex._unknown.value ∧
    (c1ex.lookup (some (pystr "miss"))).1 ≠ 7 ∧
    lookup_corrections c1ex (some (pystr "miss")) = 0 := by
  decide

/-- C2: for every lookup instance and every term, `lookup_exact` returns
either a value stored in the backing mapping or exactly the configured
unknown sentinel value, never anything else. -/
theorem C2_lookup_exact_value_range (v : VocabLookup) (term : Option PyStr) :
    (v.lookup_exact term).1 ∈ v._lookup.map Prod.snd ∨
    (v.lookup_exact term).1 = v._unknown.value := by
  simp only [VocabLookup.lookup_exact, VocabLookup.dd_getitem]
  cases h : dictGet v._lookup (pyNormalize (term.getD [])) with
  | none =>
    right
    simp [h, VocabLookup.return_unknown]
  | some val =>
    left
    simpa [h] using dictGet_mem_values _ _ _ h

/-- C3: the claim states that hierarchical expansion from parent `{P}`
over edges `P to A` and `A to B` yields a mapping with entries for the
normalized names of `A` and `B`.  The code violates this: on the graph
`c3_rels` the accessor does return children at every level (first three
conjuncts), yet `get_lookup` produces an empty mapping, because the only
statement of `get_all_concepts_in_hierarchy` that would record a concept
is commented out in the source (line 74), so the traversal collects
nothing.  (Independently, `__init__` calls `get_lookup` with three
arguments against a one-parameter signature, so parent-based
construction raises TypeError before the traversal even starts.) -/
theorem C3_hierarchy_collects_nothing :
    get_children c3_rels [1] = [(1, 2)] ∧
    get_children c3_rels [2] = [(2, 3)] ∧
    get_children c3_rels [3] = [] ∧
    get_lookup c3_rels 1 10 [] = some [] := by
  decide

/-- C4: `lookup_exact` is total on terms: a `None` term is normalized to
the empty string, blank terms normalize alike, so `lookup_exact(None)`,
`lookup_exact("")` and `lookup_exact("  ")` agree; and when the empty
string is not a key, the `None` term resolves to the unknown sentinel
default. -/
theorem C4_blank_inputs_agree (v : VocabLookup) :
    (v.lookup_exact Option.none).1 = (v.lookup_exact (some (pystr ""))).1 ∧
    (v.lookup_exact (some (pystr ""))).1 = (v.lookup_exact (some (pystr "  "))).1 ∧
    (dictGet v._lookup [] = Option.none →
      (v.lookup_exact Option.none).1 = v._unknown.value) := by
  have h0 : pyNormalize ((some (pystr "")).getD []) = [] := by decide
  have h2 : pyNormalize ((some (pystr "  ")).getD []) = [] := by decide
  have hn : pyNormalize ((Option.none : Option PyStr).getD []) = [] := by decide
  refine ⟨?_, ?_, ?_⟩
  · simp only [VocabLookup.lookup_exact, h0, hn]
  · simp only [VocabLookup.lookup_exact, h0, h2]
  · intro h
    simp only [VocabLookup.lookup_exact, hn, VocabLookup.dd_getitem, h,
      VocabLookup.return_unknown]

/-- Witness for C4 on a concrete instance whose mapping lacks the empty
key. -/
theorem C4_witness :
    (c4ex.lookup_exact Option.none).1 = (c4ex.lookup_exact (some (pystr ""))).1 ∧
    (c4ex.lookup_exact Option.none).1 = c4ex._unknown.value :=
  ⟨(C4_blank_inputs_agree c4ex).1, (C4_blank_inputs_agree c4ex).2.2 (by decide)⟩

/-- C5: every key of a backing mapping is normalized, whichever way the
mapping was populated: the domain scan inserts lower-cased, stripped
keys; the hierarchical expansion inserts nothing at all (its collection
step is inert, see C3), so it trivially preserves the invariant; a
defaultdict miss inserts the normalized query term; and on the
domain-built instance `breastEx` the terms `"Breast"`, `"breast"` and
`" breast "` all resolve to the same concept id. -/
theorem C5_every_key_normalized :
    (∀ (concepts : List Concept) (domain : String) (m : List (PyStr × Nat)),
       NormalizedKeys m → NormalizedKeys (get_domain_lookup concepts domain m)) ∧
    (∀ (rels : List ConceptRelationship) (parent fuel : Nat)
       (m m2 : List (PyStr × Nat)),
       get_lookup rels parent fuel m = some m2 → NormalizedKeys m → NormalizedKeys m2) ∧
    (∀ (v : VocabLookup) (term : Option PyStr),
       NormalizedKeys v._lookup → NormalizedKeys ((v.lookup_exact term).2)._lookup) ∧
    ((breastEx.lookup_exact (some (pystr "Breast"))).1 = 5 ∧
     (breastEx.lookup_exact (some (pystr "breast"))).1 = 5 ∧
     (breastEx.lookup_exact (some (pystr " breast "))).1 = 5) := by
  refine ⟨?_, ?_, ?_, by decide, by decide, by decide⟩
  · intro concepts domain m hm
    unfold get_domain_lookup
    exact normalizedKeys_domain_foldl _ _ hm
  · intro rels parent fuel m m2 h hm
    unfold get_lookup at h
    cases hg : get_all_concepts_in_hierarchy rels fuel (get_children rels [parent]) [] with
    | none =>
      simp only [hg] at h
      cases h
    | some concepts =>
      simp only [hg] at h
      have hc : concepts = [] := gaich_acc rels fuel _ _ _ hg
      subst hc
      simp only [List.foldl_nil, Option.some.injEq] at h
      subst h
      exact hm
  · intro v term hm
    exact normalizedKeys_dd_getitem v _ (pyNormalize_idem _) hm

/-- Witness for C5 on a concrete domain-built mapping. -/
theorem C5_witness :
    NormalizedKeys (get_domain_lookup [⟨5, pystr "Breast", "Condition"⟩] "Condition" []) :=
  C5_every_key_normalized.1 [⟨5, pystr "Breast", "Condition"⟩] "Condition" []
    (fun p hp => absurd hp (List.not_mem_nil p))

/-- C6 counterexample: the claim states that `lookup_exact` leaves the
backing mapping exactly as it was.  On `c6ex`, whose mapping holds only
the key `"a"`, the call `lookup_exact "b"` changes the mapping: the
defaultdict inserts the missed key `"b"` with the unknown value. -/
theorem C6_counterexample :
    ¬ ((c6ex.lookup_exact (some (pystr "b"))).2._lookup = c6ex._lookup) := by
  decide

/-- C6 amended: after construction, `lookup_exact` and `lookup` never
change the value of an existing key and never remove a key; however a
missed term makes the defaultdict append that normalized term with the
unknown value, so the key set can grow by one entry per miss.  `lookup`
changes the mapping exactly as `lookup_exact` does. -/
theorem C6_amended_read_only_except_miss_caching (v : VocabLookup)
    (term : Option PyStr) :
    ((v.lookup_exact term).2._lookup = v._lookup ∨
     (v.lookup_exact term).2._lookup =
       v._lookup ++ [(pyNormalize (term.getD []), v._unknown.value)]) ∧
    (v.lookup term).2._lookup = (v.lookup_exact term).2._lookup := by
  constructor
  · exact dd_getitem_state v (pyNormalize (term.getD []))
  · rw [lookup_eq_lookup_exact]

/-- Supporting lemma about the intended algorithm (spec section 4.2),
stated on the materialized model: when the Subsumes graph admits a
topological rank (the formalization of the documented acyclicity
assumption), the traversal terminates through its empty-frontier base
case with any recursion budget above the rank bound of the starting
frontier.  This characterizes the behaviour the stop condition of
line 70 was written for; the program itself never reaches it, see the
claim theorem on `get_all_concepts_in_hierarchy_run`. -/
theorem intended_traversal_terminates (rels : List ConceptRelationship)
    (rk : Nat → Nat)
    (hacyclic : ∀ e ∈ rels, e.relationship_id = "Subsumes" →
      rk e.concept_id_2 < rk e.concept_id_1) :
    ∀ (k : Nat) (children : List (Nat × Nat)) (concepts : List Concept),
      (∀ c ∈ children, rk c.2 < k) → ∀ fuel, k < fuel →
      get_all_concepts_in_hierarchy rels fuel children concepts = some concepts := by
  intro k
  induction k using Nat.strong_induction_on with
  | _ k IH =>
    intro children concepts hbound fuel hfuel
    cases fuel with
    | zero => exact absurd hfuel (Nat.not_lt_zero k)
    | succ fuel =>
      rw [get_all_concepts_in_hierarchy]
      split
      · rfl
      · clear * - IH hbound hfuel hacyclic
        induction children with
        | nil => rfl
        | cons child rest ihl =>
          have hchild : rk child.2 < k := hbound child (List.mem_cons_self _ _)
          have hnext : ∀ c ∈ get_children rels [child.2], rk c.2 < rk child.2 := by
            intro c hcmem
            obtain ⟨h1, e, he, hrel, he1, he2⟩ := mem_get_children rels child.2 c hcmem
            have hlt := hacyclic e he hrel
            rw [he1, he2, h1] at hlt
            exact hlt
          have hg : get_all_concepts_in_hierarchy rels fuel
              (get_children rels [child.2]) concepts = some concepts :=
            IH (rk child.2) hchild _ _ hnext fuel (by omega)
          simp only [List.foldl_cons, hg]
          exact ihl (fun c hcm => hbound c (List.mem_cons_of_mem _ hcm))

/-- Instantiation of the intended-algorithm lemma on the acyclic chain
`1 to 2 to 3` with rank `fun n => 4 - n` and budget 4. -/
theorem intended_traversal_terminates_example :
    get_all_concepts_in_hierarchy c7_rels 4 (get_children c7_rels [1]) [] = some [] :=
  intended_traversal_terminates c7_rels (fun n => 4 - n) (by decide) 3
    (get_children c7_rels [1]) [] (by decide) 4 (by decide)

/-- C7: the claim states that the traversal terminates and stops exactly
when a query to the graph accessor for the current frontier returns an
empty set of children.  The program cannot do this: `get_children`
returns a lazy SQLAlchemy `Query`, and the stop check `len(children) == 0`
(line 70) applies `len()` to that object, which raises TypeError on
every call — including a call whose frontier query yields no rows at
all, as for concept 3 below, which has no children.  So the traversal
always terminates by raising at its first stop check and never reaches
the empty-frontier exit; `intended_traversal_terminates` shows the stop
condition behaves as the claim describes only on materialized result
lists, which is the documented intent the code fails to implement. -/
theorem C7_stop_check_raises_type_error :
    get_all_concepts_in_hierarchy_run c7_rels 4 (get_children_query c7_rels [1]) [] =
      Except.error "TypeError: object of type Query has no len()" ∧
    (get_children_query c7_rels [3]).rows = [] ∧
    get_all_concepts_in_hierarchy_run c7_rels 4 (get_children_query c7_rels [3]) [] =
      Except.error "TypeError: object of type Query has no len()" :=
  ⟨rfl, by decide, rfl⟩

/-- C8: whenever `lookup_exact` hits (its result differs from the
configured unknown value), `lookup` returns the same result and no
correction function is evaluated. -/
theorem C8_exact_hit_skips_corrections (v : VocabLookup) (term : Option PyStr)
    (_hhit : (v.lookup_exact term).1 ≠ v._unknown.value) :
    (v.lookup term).1 = (v.lookup_exact term).1 ∧
    lookup_corrections v term = 0 :=
  ⟨by rw [lookup_eq_lookup_exact], lookup_corrections_zero v term⟩

/-- Witness for C8 on a concrete hit. -/
theorem C8_witness :
    (c8ex.lookup (some (pystr "male"))).1 = (c8ex.lookup_exact (some (pystr "male"))).1 ∧
    lookup_corrections c8ex (some (pystr "male")) = 0 :=
  C8_exact_hit_skips_corrections c8ex (some (pystr "male")) (by decide)

/-- C9: `ConceptEnum.is_member` returns true for every falsy input
(`None`, `0`, the empty string) over any enum declaration list, even
when that value belongs to no member; `Unknown.is_unknown` inherits this
for `0` although no `Unknown` member has value 0; and for truthy inputs
`is_member` reduces to genuine value membership. -/
theorem C9_falsy_values_are_members :
    (∀ decls : List (String × Nat),
       is_member decls PyVal.none = true ∧
       is_member decls (PyVal.int 0) = true ∧
       is_member decls (PyVal.str (pystr "")) = true) ∧
    (is_unknown (PyVal.int 0) = true ∧
     (member_values Unknown).all (fun n => n != 0) = true) ∧
    (∀ (decls : List (String × Nat)) (val : PyVal), pyTruthy val = true →
       is_member decls val = (member_values decls).any (fun n => pyEqInt val n)) := by
  refine ⟨?_, ⟨by decide, by decide⟩, ?_⟩
  · intro decls
    refine ⟨rfl, rfl, rfl⟩
  · intro decls val h
    simp [is_member, h]

/-- Witness for C9 applying the truthy-input characterization. -/
theorem C9_witness :
    is_member [("x", 1)] (PyVal.int 1) =
      (member_values [("x", 1)]).any (fun n => pyEqInt (PyVal.int 1) n) :=
  C9_falsy_values_are_members.2.2 [("x", 1)] (PyVal.int 1) (by decide)

/-- C10: duplicate-valued declarations are aliases of the first-declared
member: `labels` omits `stageIV`, `complete_response`, `tx` and `tis`,
and `get_name` on each shared value returns the first-declared name. -/
theorem C10_duplicate_values_are_aliases :
    labels GroupStageConcepts = ["stage0", "stageI", "stageII", "stageIII"] ∧
    get_name GroupStageConcepts 1633650 = "stageIII" ∧
    labels DiseaseEpisodeConcepts =
      ["episode_of_care", "confined", "invasive", "metastatic",
       "stable_disease", "disease_progression", "partial_response"] ∧
    get_name DiseaseEpisodeConcepts 32947 = "partial_response" ∧
    labels TStageConcepts = ["t0", "t1", "t2", "t3", "t4", "ta"] ∧
    get_name TStageConcepts 1635682 = "ta" := by
  decide

end OmopAlchemy
